import Mathlib

/-!
Shallow embedding of the AMS Touch Panel navigation and session core
(src/core/navigation.py and src/core/config.py), with theorems checking the
natural-language specification against it.

Modelling conventions:
- Python strings are Lean `String`; `datetime.now()` values are passed in as
  explicit `Nat` parameters; machine state is explicit record passing.
- The Kivy `ScreenManager` is external; we keep only what the repo code
  observes of it: the current screen name (initially the empty string,
  modelling the unset Kivy `current`; `add_widget` selects the first added
  screen) and the assignment `screen_manager.current = name`, modelled as a
  total update.  Screen objects are abstracted to the presence/behaviour of
  their `on_screen_exit` / `on_screen_enter` hooks.
- `hookLog` is ghost instrumentation recording which hooks were invoked; no
  source logic reads it.
-/

/-- Behaviour of one optional screen lifecycle hook: the attribute is absent,
or present and returns normally, or present and raises an exception. -/
inductive HookSpec where
  | absent
  | ok
  | raises
deriving DecidableEq, Repr

/-- Abstraction of a registered screen object: just its two lifecycle hooks. -/
structure ScreenStub where
  exitHook : HookSpec
  enterHook : HookSpec
deriving DecidableEq, Repr

/-- One entry of `navigation_history` (src/core/navigation.py,
`_record_navigation`).  The `timestamp` field copies `app_state.current_user`
exactly as the source does. -/
structure NavEvent where
  fromS : String
  toS : String
  timestamp : Option String
  session_id : Option String
deriving DecidableEq, Repr

/-- One element of `SessionState.accessible_keys` (src/core/config.py). -/
structure KeyRecord where
  name : String
  slot : Nat
  status : String
deriving DecidableEq, Repr

/-- One audit entry of `removed_keys` / `returned_keys`. -/
structure KeyEvent where
  name : String
  slot : Nat
  time : Nat
  session_id : Option String
deriving DecidableEq, Repr

/-- The fields of `SessionState` (src/core/config.py). -/
structure SessionState where
  current_user : Option String
  login_time : Option Nat
  activity_code : Option String
  authentication_method : Option String
  session_active : Bool
  accessible_keys : List KeyRecord
  removed_keys : List KeyEvent
  returned_keys : List KeyEvent
  failed_attempts : Nat
  theme_changed : Bool
  session_id : Option String
deriving DecidableEq, Repr

/-- The summary dict returned by `SessionState.end_session`. -/
structure SessionSummary where
  session_id : Option String
  user : Option String
  auth_method : Option String
  login_time : Option Nat
  end_time : Nat
  duration : Nat
  activity_code : Option String
  keys_removed : Nat
  keys_returned : Nat
  removed_keys : List KeyEvent
  returned_keys : List KeyEvent
  failed_attempts : Nat
deriving DecidableEq, Repr

/-- NavigationManager state (src/core/navigation.py) plus the observed part of
the Kivy screen manager (`current`).  `hookLog` is ghost instrumentation:
it records `(screenName, isExit)` for every lifecycle hook invocation. -/
structure NavState where
  current : String
  navigation_history : List NavEvent
  screen_registry : List (String × ScreenStub)
  hookLog : List (String × Bool)
deriving DecidableEq, Repr

/-- Combined system state: the NavigationManager and the `app_state` singleton. -/
structure Sys where
  nav : NavState
  sess : SessionState
deriving DecidableEq, Repr

/-- AppConfig.MAX_PIN_ATTEMPTS (src/core/config.py line 308). -/
def MAX_PIN_ATTEMPTS : Nat := 3

/-- `_setup_navigation_rules` (src/core/navigation.py lines 49-61). -/
def navigationRules : List (String × List String) :=
  [("main_idle", ["auth_selection", "emergency_access", "configuration"]),
   ("auth_selection", ["main_idle", "card_scan", "biometric_scan"]),
   ("card_scan", ["auth_selection", "pin_entry"]),
   ("biometric_scan", ["auth_selection", "pin_entry"]),
   ("pin_entry", ["card_scan", "biometric_scan", "activity_code"]),
   ("activity_code", ["pin_entry", "main_idle"]),
   ("emergency_access", ["main_idle"]),
   ("configuration", ["main_idle"])]

/-- Dictionary lookup `navigation_rules[from]` as an option. -/
def ruleFor (f : String) : Option (List String) :=
  (navigationRules.find? (fun p => p.1 == f)).map (fun p => p.2)

/-- `_validate_navigation` (src/core/navigation.py lines 129-141): always allow
`main_idle`; otherwise consult the rules; default to allow when the source
screen has no rule entry. -/
def validateNavigation (fromScreen toScreen : String) : Bool :=
  if toScreen = "main_idle" then
    true
  else
    match ruleFor fromScreen with
    | some allowed => decide (toScreen ∈ allowed)
    | none => true

/-- ASCII lowercase of a character, modelling Python `str.lower` on the ASCII
usernames the code compares against. -/
def lowerChar (c : Char) : Char :=
  if 65 ≤ c.toNat && c.toNat ≤ 90 then Char.ofNat (c.toNat + 32) else c

/-- Does the character list start with the given pattern? -/
def startsWithChars : List Char → List Char → Bool
  | [], _ => true
  | _ :: _, [] => false
  | p :: ps, c :: cs => p == c && startsWithChars ps cs

/-- Python `pat in s` on character lists: the pattern occurs somewhere. -/
def containsChars (pat : List Char) : List Char → Bool
  | [] => startsWithChars pat []
  | c :: cs => startsWithChars pat (c :: cs) || containsChars pat cs

/-- `SessionState.load_accessible_keys` (src/core/config.py lines 411-437):
role inferred by substring match on the lowercased username. -/
def loadAccessibleKeys (user : Option String) : List KeyRecord :=
  match user with
  | none => []
  | some u =>
    let userLower := u.toList.map lowerChar
    if (["supervisor", "admin", "manager"]).any
        (fun role => containsChars role.toList userLower) then
      [⟨"Main Office Entrance", 1, "available"⟩,
       ⟨"Server Room A-1", 2, "available"⟩,
       ⟨"Lab Section 3B", 3, "available"⟩,
       ⟨"Storage Unit #7", 4, "available"⟩,
       ⟨"Conference Room 1", 5, "available"⟩,
       ⟨"Data Center Main", 6, "available"⟩,
       ⟨"Research Lab G", 7, "available"⟩,
       ⟨"Executive Office", 8, "available"⟩]
    else
      [⟨"Main Office Entrance", 1, "available"⟩,
       ⟨"Conference Room 1", 5, "available"⟩,
       ⟨"Storage Unit #7", 4, "available"⟩]

/-- `SessionState.reset` (src/core/config.py lines 385-397). -/
def resetState : SessionState :=
  { current_user := none
    login_time := none
    activity_code := none
    authentication_method := none
    session_active := false
    accessible_keys := []
    removed_keys := []
    returned_keys := []
    failed_attempts := 0
    theme_changed := false
    session_id := none }

/-- `SessionState.start_session` (src/core/config.py lines 399-409).  The
`session_id` format string is modelled as user name, underscore, and the
time parameter rendered as text. -/
def startSession (s : SessionState) (username method : String) (now : Nat) :
    SessionState :=
  { s with
    current_user := some username
    authentication_method := some method
    login_time := some now
    session_active := true
    session_id := some (username ++ "_" ++ toString now)
    failed_attempts := 0
    accessible_keys := loadAccessibleKeys (some username) }

/-- The loop of `SessionState.remove_key`: find the first key with the given
slot and status available, flip its status, and report the matched record. -/
def markRemoved : List KeyRecord → Nat → Option (List KeyRecord × KeyRecord)
  | [], _ => none
  | k :: rest, slot =>
    if k.slot = slot ∧ k.status = "available" then
      some ({ k with status := "removed" } :: rest, k)
    else
      (markRemoved rest slot).map (fun p => (k :: p.1, p.2))

/-- `SessionState.remove_key` (src/core/config.py lines 439-451). -/
def removeKey (s : SessionState) (slot now : Nat) : SessionState × Bool :=
  match markRemoved s.accessible_keys slot with
  | some (ks, k) =>
    ({ s with
        accessible_keys := ks
        removed_keys := s.removed_keys ++ [⟨k.name, slot, now, s.session_id⟩] },
     true)
  | none => (s, false)

/-- The loop of `SessionState.return_key`: find the first key with the given
slot and status removed, flip its status back, and report the matched record. -/
def markReturned : List KeyRecord → Nat → Option (List KeyRecord × KeyRecord)
  | [], _ => none
  | k :: rest, slot =>
    if k.slot = slot ∧ k.status = "removed" then
      some ({ k with status := "available" } :: rest, k)
    else
      (markReturned rest slot).map (fun p => (k :: p.1, p.2))

/-- `SessionState.return_key` (src/core/config.py lines 453-465). -/
def returnKey (s : SessionState) (slot now : Nat) : SessionState × Bool :=
  match markReturned s.accessible_keys slot with
  | some (ks, k) =>
    ({ s with
        accessible_keys := ks
        returned_keys := s.returned_keys ++ [⟨k.name, slot, now, s.session_id⟩] },
     true)
  | none => (s, false)

/-- `SessionState.end_session` (src/core/config.py lines 467-494). -/
def endSession (s : SessionState) (now : Nat) :
    SessionState × Option SessionSummary :=
  if s.session_active then
    let summary : SessionSummary :=
      { session_id := s.session_id
        user := s.current_user
        auth_method := s.authentication_method
        login_time := s.login_time
        end_time := now
        duration := match s.login_time with
          | some t => now - t
          | none => 0
        activity_code := s.activity_code
        keys_removed := s.removed_keys.length
        keys_returned := s.returned_keys.length
        removed_keys := s.removed_keys
        returned_keys := s.returned_keys
        failed_attempts := s.failed_attempts }
    (resetState, some summary)
  else
    (s, none)

/-- Registry lookup `screen_registry.get(name)` / `get_screen`. -/
def lookupReg (reg : List (String × ScreenStub)) (n : String) :
    Option ScreenStub :=
  (reg.find? (fun p => p.1 == n)).map (fun p => p.2)

/-- Python dict assignment `screen_registry[name] = screen` (overwrite). -/
def regInsert (reg : List (String × ScreenStub)) (n : String)
    (st : ScreenStub) : List (String × ScreenStub) :=
  match reg with
  | [] => [(n, st)]
  | p :: rest =>
    if p.1 = n then (n, st) :: rest else p :: regInsert rest n st

/-- Behaviour of the requested lifecycle hook of the named screen, `absent`
when the screen is unregistered or lacks the attribute (`hasattr` probe). -/
def hookOf (reg : List (String × ScreenStub)) (n : String) (isExit : Bool) :
    HookSpec :=
  match lookupReg reg n with
  | some st => if isExit then st.exitHook else st.enterHook
  | none => HookSpec.absent

/-- Does this hook behaviour raise? -/
def isRaises : HookSpec → Bool
  | HookSpec.raises => true
  | _ => false

/-- Ghost instrumentation: record that a hook was invoked. -/
def logHook (s : Sys) (n : String) (isExit : Bool) : Sys :=
  { s with nav := { s.nav with hookLog := s.nav.hookLog ++ [(n, isExit)] } }

/-- Invoke the requested hook of the named screen if it is present; the Bool
is true when execution continues normally (absent hook or normal return) and
false when the hook raised (caught by the `except` in `set_current`). -/
def invokeHook (s : Sys) (n : String) (isExit : Bool) : Sys × Bool :=
  match hookOf s.nav.screen_registry n isExit with
  | HookSpec.absent => (s, true)
  | HookSpec.ok => (logHook s n isExit, true)
  | HookSpec.raises => (logHook s n isExit, false)

/-- The external assignment `screen_manager.current = name`, modelled total. -/
def setCur (s : Sys) (n : String) : Sys :=
  { s with nav := { s.nav with current := n } }

/-- The history update of `_record_navigation` (src/core/navigation.py lines
143-156): append, then keep only the last 50 entries. -/
def trimHist (h : List NavEvent) (e : NavEvent) : List NavEvent :=
  let h2 := h ++ [e]
  if 50 < h2.length then h2.drop (h2.length - 50) else h2

/-- `_record_navigation` on the combined state: the event copies
`app_state.current_user` into `timestamp` and `app_state.session_id` into
`session_id`, exactly as the source does. -/
def recordNavigation (s : Sys) (f t : String) : Sys :=
  { s with nav := { s.nav with
      navigation_history :=
        trimHist s.nav.navigation_history
          ⟨f, t, s.sess.current_user, s.sess.session_id⟩ } }

/-- `NavigationManager.set_current` (src/core/navigation.py lines 91-127):
validate, record history, run the exit hook, advance the current screen, run
the entry hook; a raising hook is caught and turns the result to false.  The
`direction` argument only sets the transition animation and has no semantic
effect. -/
def setCurrent (s : Sys) (screenName direction : String) : Sys × Bool :=
  let fromScreen := s.nav.current
  if validateNavigation fromScreen screenName then
    let s1 := recordNavigation s fromScreen screenName
    let ex := invokeHook s1 fromScreen true
    if ex.2 then
      invokeHook (setCur ex.1 screenName) screenName false
    else
      (ex.1, false)
  else
    (s, false)

/-- `NavigationManager.add_screen` (src/core/navigation.py lines 63-75): a
screen with a falsy name is ignored; otherwise it is added to the Kivy
manager (which selects it as current when nothing is current yet) and to the
registry. -/
def addScreen (s : Sys) (n : String) (st : ScreenStub) : Sys :=
  if n = "" then
    s
  else
    { s with nav := { s.nav with
        current := if s.nav.current = "" then n else s.nav.current
        screen_registry := regInsert s.nav.screen_registry n st } }

/-- `NavigationManager.go_back` (src/core/navigation.py lines 158-169). -/
def goBack (s : Sys) : Sys × Bool :=
  if 2 ≤ s.nav.navigation_history.length then
    setCurrent s
      ((s.nav.navigation_history.getD (s.nav.navigation_history.length - 2)
        ⟨"", "", none, none⟩).fromS) "right"
  else
    setCurrent s "main_idle" "right"

/-- `NavigationManager.go_home` (src/core/navigation.py lines 171-173). -/
def goHome (s : Sys) : Sys × Bool :=
  setCurrent s "main_idle" "right"

/-- `NavigationManager.start_authentication_flow` (lines 175-177). -/
def startAuthenticationFlow (s : Sys) : Sys × Bool :=
  setCurrent s "auth_selection" "left"

/-- `NavigationManager.handle_authentication_success` (lines 179-185). -/
def handleAuthenticationSuccess (s : Sys) (userName authMethod : String)
    (now : Nat) : Sys × Bool :=
  let s1 := { s with sess := startSession s.sess userName authMethod now }
  setCurrent s1 "activity_code" "left"

/-- `NavigationManager.handle_authentication_failure` (lines 187-197). -/
def handleAuthenticationFailure (s : Sys) : Sys × Bool :=
  let s1 := { s with sess :=
    { s.sess with failed_attempts := s.sess.failed_attempts + 1 } }
  if MAX_PIN_ATTEMPTS ≤ s1.sess.failed_attempts then
    let s2 := { s1 with sess := { s1.sess with failed_attempts := 0 } }
    setCurrent s2 "auth_selection" "right"
  else
    (s1, false)

/-- `NavigationManager.complete_activity_session` (lines 199-208). -/
def completeActivitySession (s : Sys) (now : Nat) : Sys × Bool :=
  let s1 := { s with sess := (endSession s.sess now).1 }
  setCurrent s1 "main_idle" "right"

/-- `NavigationManager.cleanup` (lines 261-274): clear the history and the
registry (screen `cleanup` callbacks have no modelled effect). -/
def cleanupManager (s : Sys) : Sys :=
  { s with nav := { s.nav with
      navigation_history := []
      screen_registry := [] } }

/-- Freshly constructed `NavigationManager` plus the `app_state` singleton as
built at import time by `SessionState.reset`. -/
def initSys : Sys :=
  { nav := { current := ""
             navigation_history := []
             screen_registry := []
             hookLog := [] }
    sess := resetState }

/-- One application of a public operation of the navigation manager or the
session singleton, with arbitrary arguments. -/
inductive Step : Sys → Sys → Prop where
  | addScreen (s : Sys) (n : String) (st : ScreenStub) :
      Step s (addScreen s n st)
  | setCur (s : Sys) (n d : String) : Step s (setCurrent s n d).1
  | goBack (s : Sys) : Step s (goBack s).1
  | goHome (s : Sys) : Step s (goHome s).1
  | startAuth (s : Sys) : Step s (startAuthenticationFlow s).1
  | authSuccess (s : Sys) (u m : String) (now : Nat) :
      Step s (handleAuthenticationSuccess s u m now).1
  | authFailure (s : Sys) : Step s (handleAuthenticationFailure s).1
  | completeAct (s : Sys) (now : Nat) :
      Step s (completeActivitySession s now).1
  | cleanup (s : Sys) : Step s (cleanupManager s)
  | sessStart (s : Sys) (u m : String) (now : Nat) :
      Step s { s with sess := startSession s.sess u m now }
  | sessRemove (s : Sys) (slot now : Nat) :
      Step s { s with sess := (removeKey s.sess slot now).1 }
  | sessReturn (s : Sys) (slot now : Nat) :
      Step s { s with sess := (returnKey s.sess slot now).1 }
  | sessEnd (s : Sys) (now : Nat) :
      Step s { s with sess := (endSession s.sess now).1 }

/-- States reachable from the freshly constructed system. -/
inductive Reachable : Sys → Prop where
  | init : Reachable initSys
  | step {s t : Sys} : Reachable s → Step s t → Reachable t


/-- Concrete state: manager sitting on the idle screen, empty registry. -/
def mainSys : Sys :=
  { nav := { current := "main_idle"
             navigation_history := []
             screen_registry := []
             hookLog := [] }
    sess := resetState }

/-- Concrete state: manager on the PIN screen after two failed attempts. -/
def lockoutSys : Sys :=
  { nav := { current := "pin_entry"
             navigation_history := []
             screen_registry := []
             hookLog := [] }
    sess := { resetState with failed_attempts := 2 } }

/-- Concrete state: two registered screens, the current one with a raising
exit hook and the other with a raising entry hook. -/
def hookSys : Sys :=
  { nav := { current := "alpha"
             navigation_history := []
             screen_registry :=
               [("alpha", ⟨HookSpec.raises, HookSpec.absent⟩),
                ("beta", ⟨HookSpec.absent, HookSpec.raises⟩)]
             hookLog := [] }
    sess := resetState }

/-- Concrete reachable state: register a screen that has no rule entry, then
navigate away from it (permitted by the fail-open default). -/
def cexC3 : Sys :=
  (setCurrent (addScreen initSys "rogue" ⟨HookSpec.absent, HookSpec.absent⟩)
    "pin_entry" "left").1

/-- Concrete reachable state with one recorded navigation. -/
def oneNavSys : Sys := (setCurrent initSys "main_idle" "left").1

/-- Concrete session of a standard (non-supervisor) user. -/
def aliceSess : SessionState := startSession resetState "alice" "card" 0

/-- Concrete session state with one key-removal audit event recorded. -/
def c4mid : SessionState := (removeKey aliceSess 1 1).1

@[simp] theorem logHook_nav_hist (s : Sys) (n : String) (b : Bool) :
    (logHook s n b).nav.navigation_history = s.nav.navigation_history := rfl

@[simp] theorem logHook_nav_current (s : Sys) (n : String) (b : Bool) :
    (logHook s n b).nav.current = s.nav.current := rfl

@[simp] theorem logHook_nav_reg (s : Sys) (n : String) (b : Bool) :
    (logHook s n b).nav.screen_registry = s.nav.screen_registry := rfl

@[simp] theorem logHook_sess (s : Sys) (n : String) (b : Bool) :
    (logHook s n b).sess = s.sess := rfl

@[simp] theorem invokeHook_nav_hist (s : Sys) (n : String) (b : Bool) :
    (invokeHook s n b).1.nav.navigation_history = s.nav.navigation_history := by
  unfold invokeHook
  cases hookOf s.nav.screen_registry n b <;> simp

@[simp] theorem invokeHook_nav_current (s : Sys) (n : String) (b : Bool) :
    (invokeHook s n b).1.nav.current = s.nav.current := by
  unfold invokeHook
  cases hookOf s.nav.screen_registry n b <;> simp

@[simp] theorem invokeHook_nav_reg (s : Sys) (n : String) (b : Bool) :
    (invokeHook s n b).1.nav.screen_registry = s.nav.screen_registry := by
  unfold invokeHook
  cases hookOf s.nav.screen_registry n b <;> simp

@[simp] theorem invokeHook_sess (s : Sys) (n : String) (b : Bool) :
    (invokeHook s n b).1.sess = s.sess := by
  unfold invokeHook
  cases hookOf s.nav.screen_registry n b <;> simp

@[simp] theorem invokeHook_snd (s : Sys) (n : String) (b : Bool) :
    (invokeHook s n b).2 = !(isRaises (hookOf s.nav.screen_registry n b)) := by
  unfold invokeHook
  cases hookOf s.nav.screen_registry n b <;> simp [isRaises]

@[simp] theorem recordNavigation_nav_current (s : Sys) (f t : String) :
    (recordNavigation s f t).nav.current = s.nav.current := rfl

@[simp] theorem recordNavigation_nav_reg (s : Sys) (f t : String) :
    (recordNavigation s f t).nav.screen_registry = s.nav.screen_registry := rfl

@[simp] theorem recordNavigation_sess (s : Sys) (f t : String) :
    (recordNavigation s f t).sess = s.sess := rfl

@[simp] theorem recordNavigation_nav_hist (s : Sys) (f t : String) :
    (recordNavigation s f t).nav.navigation_history =
      trimHist s.nav.navigation_history ⟨f, t, s.sess.current_user, s.sess.session_id⟩ := rfl

@[simp] theorem setCur_nav_current (s : Sys) (n : String) :
    (setCur s n).nav.current = n := rfl

@[simp] theorem setCur_nav_hist (s : Sys) (n : String) :
    (setCur s n).nav.navigation_history = s.nav.navigation_history := rfl

@[simp] theorem setCur_nav_reg (s : Sys) (n : String) :
    (setCur s n).nav.screen_registry = s.nav.screen_registry := rfl

@[simp] theorem setCur_sess (s : Sys) (n : String) :
    (setCur s n).sess = s.sess := rfl

theorem setCurrent_reject (s : Sys) (n d : String)
    (hv : validateNavigation s.nav.current n = false) :
    setCurrent s n d = (s, false) := by
  dsimp only [setCurrent]
  simp [hv]

theorem setCurrent_snd (s : Sys) (n d : String) :
    (setCurrent s n d).2 =
      (validateNavigation s.nav.current n
        && !(isRaises (hookOf s.nav.screen_registry s.nav.current true))
        && !(isRaises (hookOf s.nav.screen_registry n false))) := by
  dsimp only [setCurrent]
  split
  next hv =>
    rw [hv]
    split
    next hex =>
      simp only [invokeHook_snd, invokeHook_nav_reg, recordNavigation_nav_reg] at hex ⊢
      simp [setCur, hex]
    next hex =>
      simp only [invokeHook_snd, invokeHook_nav_reg, recordNavigation_nav_reg] at hex
      simp only [Bool.not_eq_true, Bool.not_eq_false] at hex
      simp [hex]
  next hv =>
    simp at hv
    simp [hv]

theorem setCurrent_hist_of_valid (s : Sys) (n d : String)
    (hv : validateNavigation s.nav.current n = true) :
    (setCurrent s n d).1.nav.navigation_history =
      trimHist s.nav.navigation_history
        ⟨s.nav.current, n, s.sess.current_user, s.sess.session_id⟩ := by
  dsimp only [setCurrent]
  rw [hv]
  simp only [if_true]
  split
  · simp
  · simp

theorem setCurrent_current_of_valid (s : Sys) (n d : String)
    (hv : validateNavigation s.nav.current n = true) :
    (setCurrent s n d).1.nav.current =
      if isRaises (hookOf s.nav.screen_registry s.nav.current true) then
        s.nav.current
      else n := by
  dsimp only [setCurrent]
  rw [hv]
  simp only [if_true]
  split
  next hex =>
    simp only [invokeHook_snd, invokeHook_nav_reg, recordNavigation_nav_reg] at hex
    simp_all
  next hex =>
    simp only [invokeHook_snd, invokeHook_nav_reg, recordNavigation_nav_reg] at hex
    simp_all

theorem trimHist_length (h : List NavEvent) (e : NavEvent) :
    (trimHist h e).length = min (h.length + 1) 50 := by
  unfold trimHist
  dsimp only
  split
  next hc =>
    simp only [List.length_drop, List.length_append, List.length_singleton] at hc ⊢
    omega
  next hc =>
    simp only [List.length_append, List.length_singleton] at hc ⊢
    omega

theorem mem_trimHist {h : List NavEvent} {e x : NavEvent}
    (hx : x ∈ trimHist h e) : x ∈ h ∨ x = e := by
  unfold trimHist at hx
  dsimp only at hx
  have hx2 : x ∈ h ++ [e] := by
    rcases (em (50 < (h ++ [e]).length)) with hc | hc
    · rw [if_pos hc] at hx
      exact List.drop_subset _ _ hx
    · rw [if_neg hc] at hx
      exact hx
  rcases List.mem_append.mp hx2 with h1 | h1
  · exact Or.inl h1
  · exact Or.inr (List.mem_singleton.mp h1)

theorem setCurrent_hist_cases (s : Sys) (n d : String) :
    (setCurrent s n d).1.nav.navigation_history = s.nav.navigation_history ∨
    (validateNavigation s.nav.current n = true ∧
     (setCurrent s n d).1.nav.navigation_history =
       trimHist s.nav.navigation_history
         ⟨s.nav.current, n, s.sess.current_user, s.sess.session_id⟩) := by
  by_cases hv : validateNavigation s.nav.current n = true
  · exact Or.inr ⟨hv, setCurrent_hist_of_valid s n d hv⟩
  · rw [setCurrent_reject s n d (by simpa using hv)]
    exact Or.inl rfl

theorem setCurrent_len_le (s : Sys) (n d : String)
    (h : s.nav.navigation_history.length ≤ 50) :
    (setCurrent s n d).1.nav.navigation_history.length ≤ 50 := by
  rcases setCurrent_hist_cases s n d with hc | ⟨_, hc⟩ <;> rw [hc]
  · exact h
  · rw [trimHist_length]
    omega

@[simp] theorem addScreen_nav_hist (s : Sys) (n : String) (st : ScreenStub) :
    (addScreen s n st).nav.navigation_history = s.nav.navigation_history := by
  unfold addScreen
  split <;> rfl

theorem step_len_le {s t : Sys} (st : Step s t)
    (h : s.nav.navigation_history.length ≤ 50) :
    t.nav.navigation_history.length ≤ 50 := by
  cases st with
  | addScreen n stub => rw [addScreen_nav_hist]; exact h
  | setCur n d => exact setCurrent_len_le s n d h
  | goBack =>
    unfold goBack
    split <;> exact setCurrent_len_le _ _ _ h
  | goHome => exact setCurrent_len_le _ _ _ h
  | startAuth => exact setCurrent_len_le _ _ _ h
  | authSuccess u m now =>
    unfold handleAuthenticationSuccess
    dsimp only
    exact setCurrent_len_le _ "activity_code" "left" h
  | authFailure =>
    unfold handleAuthenticationFailure
    dsimp only
    split
    · exact setCurrent_len_le _ _ _ h
    · exact h
  | completeAct now => exact setCurrent_len_le _ _ _ h
  | cleanup => simp [cleanupManager]
  | sessStart u m now => exact h
  | sessRemove slot now => exact h
  | sessReturn slot now => exact h
  | sessEnd now => exact h

theorem reachable_len_le {s : Sys} (hr : Reachable s) :
    s.nav.navigation_history.length ≤ 50 := by
  induction hr with
  | init => simp [initSys]
  | step _ st ih => exact step_len_le st ih

theorem setCurrent_hist_valid (s : Sys) (n d : String)
    (ih : ∀ e ∈ s.nav.navigation_history, validateNavigation e.fromS e.toS = true) :
    ∀ e ∈ (setCurrent s n d).1.nav.navigation_history,
      validateNavigation e.fromS e.toS = true := by
  rcases setCurrent_hist_cases s n d with hc | ⟨hv, hc⟩ <;> rw [hc]
  · exact ih
  · intro e he
    rcases mem_trimHist he with h1 | rfl
    · exact ih e h1
    · exact hv

theorem step_hist_valid {s t : Sys} (st : Step s t)
    (ih : ∀ e ∈ s.nav.navigation_history, validateNavigation e.fromS e.toS = true) :
    ∀ e ∈ t.nav.navigation_history, validateNavigation e.fromS e.toS = true := by
  cases st with
  | addScreen n stub => rw [addScreen_nav_hist]; exact ih
  | setCur n d => exact setCurrent_hist_valid s n d ih
  | goBack =>
    unfold goBack
    split <;> exact setCurrent_hist_valid _ _ _ ih
  | goHome => exact setCurrent_hist_valid _ _ _ ih
  | startAuth => exact setCurrent_hist_valid _ _ _ ih
  | authSuccess u m now =>
    unfold handleAuthenticationSuccess
    dsimp only
    exact setCurrent_hist_valid _ "activity_code" "left" ih
  | authFailure =>
    unfold handleAuthenticationFailure
    dsimp only
    split
    · exact setCurrent_hist_valid _ _ _ ih
    · exact ih
  | completeAct now => exact setCurrent_hist_valid _ _ _ ih
  | cleanup => simp [cleanupManager]
  | sessStart u m now => exact ih
  | sessRemove slot now => exact ih
  | sessReturn slot now => exact ih
  | sessEnd now => exact ih

theorem reachable_hist_valid {s : Sys} (hr : Reachable s) :
    ∀ e ∈ s.nav.navigation_history, validateNavigation e.fromS e.toS = true := by
  induction hr with
  | init => simp [initSys]
  | step _ st ih => exact step_hist_valid st ih

theorem foldl_trimHist_append (es : List NavEvent) (acc : List NavEvent)
    (h : acc.length + es.length ≤ 50) : es.foldl trimHist acc = acc ++ es := by
  induction es generalizing acc with
  | nil => simp
  | cons e rest ih =>
    simp only [List.length_cons] at h
    have hc : ¬ 50 < (acc ++ [e]).length := by
      simp only [List.length_append, List.length_singleton]
      omega
    have h1 : trimHist acc e = acc ++ [e] := by
      unfold trimHist
      dsimp only
      rw [if_neg hc]
    have h2 : (acc ++ [e]).length + rest.length ≤ 50 := by
      simp only [List.length_append, List.length_singleton]
      omega
    rw [List.foldl_cons, h1, ih (acc ++ [e]) h2]
    simp

theorem foldl_trimHist_51 (es : List NavEvent) (h : es.length = 51) :
    es.foldl trimHist [] = es.drop 1 := by
  have hne : es ≠ [] := by
    intro he
    simp [he] at h
  obtain ⟨front, last, hes⟩ : ∃ f l, es = f ++ [l] :=
    ⟨es.dropLast, es.getLast hne, (List.dropLast_append_getLast hne).symm⟩
  subst hes
  have hf : front.length = 50 := by
    simp at h
    omega
  rw [List.foldl_append]
  rw [foldl_trimHist_append front [] (by simp [hf])]
  simp only [List.nil_append, List.foldl_cons, List.foldl_nil]
  unfold trimHist
  dsimp only
  have hlen : (front ++ [last]).length = 51 := by
    simp [hf]
  rw [if_pos (by omega), hlen]

theorem markRemoved_found (l1 : List KeyRecord) (k : KeyRecord)
    (l2 : List KeyRecord) (slot : Nat)
    (h1 : ∀ x ∈ l1, x.slot ≠ slot) (hk : k.slot = slot)
    (hs : k.status = "available") :
    markRemoved (l1 ++ k :: l2) slot =
      some (l1 ++ { k with status := "removed" } :: l2, k) := by
  induction l1 with
  | nil =>
    simp only [List.nil_append, markRemoved]
    rw [if_pos ⟨hk, hs⟩]
  | cons x xs ih =>
    have hx : x.slot ≠ slot := h1 x (List.mem_cons_self x xs)
    have hxs : ∀ y ∈ xs, y.slot ≠ slot := fun y hy => h1 y (List.mem_cons_of_mem x hy)
    simp only [List.cons_append, markRemoved]
    rw [if_neg (by tauto)]
    simp only [List.append_eq]
    rw [ih hxs]
    rfl

theorem markReturned_found (l1 : List KeyRecord) (k : KeyRecord)
    (l2 : List KeyRecord) (slot : Nat)
    (h1 : ∀ x ∈ l1, x.slot ≠ slot) (hk : k.slot = slot)
    (hs : k.status = "removed") :
    markReturned (l1 ++ k :: l2) slot =
      some (l1 ++ { k with status := "available" } :: l2, k) := by
  induction l1 with
  | nil =>
    simp only [List.nil_append, markReturned]
    rw [if_pos ⟨hk, hs⟩]
  | cons x xs ih =>
    have hx : x.slot ≠ slot := h1 x (List.mem_cons_self x xs)
    have hxs : ∀ y ∈ xs, y.slot ≠ slot := fun y hy => h1 y (List.mem_cons_of_mem x hy)
    simp only [List.cons_append, markReturned]
    rw [if_neg (by tauto)]
    simp only [List.append_eq]
    rw [ih hxs]
    rfl

theorem nodupSlots_split {keys : List KeyRecord} {k : KeyRecord}
    (hnd : (keys.map KeyRecord.slot).Nodup) (hmem : k ∈ keys) :
    ∃ l1 l2, keys = l1 ++ k :: l2 ∧ (∀ x ∈ l1, x.slot ≠ k.slot) ∧
      (∀ x ∈ l2, x.slot ≠ k.slot) := by
  obtain ⟨l1, l2, rfl⟩ := List.append_of_mem hmem
  rw [List.map_append, List.map_cons] at hnd
  obtain ⟨h1, h2, hdisj⟩ := List.nodup_append.mp hnd
  refine ⟨l1, l2, rfl, ?_, ?_⟩
  · intro x hx he
    exact hdisj (List.mem_map_of_mem KeyRecord.slot hx)
      (by rw [he]; exact List.mem_cons_self _ _)
  · intro x hx he
    have hk : k.slot ∉ l2.map KeyRecord.slot := (List.nodup_cons.mp h2).1
    exact hk (he ▸ List.mem_map_of_mem KeyRecord.slot hx)

/-- Claim C8: for every SessionState whose accessible keys carry pairwise
distinct slots (the data-model invariant; both inventories the code loads
satisfy it) and which holds an accessible key at slot `slot` with status
available, `remove_key(slot)` followed by `return_key(slot)` returns true
twice, restores the key inventory exactly (so the key at `slot` is available
again), and appends the removal and return audit events, in order, to
`removed_keys` and `returned_keys` respectively. -/
theorem keyRemoveReturnRoundTrip (s : SessionState) (k : KeyRecord) (slot t1 t2 : Nat)
    (hnd : (s.accessible_keys.map KeyRecord.slot).Nodup)
    (hmem : k ∈ s.accessible_keys) (hslot : k.slot = slot)
    (hst : k.status = "available") :
    (removeKey s slot t1).2 = true ∧
    (returnKey (removeKey s slot t1).1 slot t2).2 = true ∧
    (returnKey (removeKey s slot t1).1 slot t2).1.accessible_keys =
      s.accessible_keys ∧
    (returnKey (removeKey s slot t1).1 slot t2).1.removed_keys =
      s.removed_keys ++ [⟨k.name, slot, t1, s.session_id⟩] ∧
    (returnKey (removeKey s slot t1).1 slot t2).1.returned_keys =
      s.returned_keys ++ [⟨k.name, slot, t2, s.session_id⟩] := by
  obtain ⟨l1, l2, hkeys, hl1, hl2⟩ := nodupSlots_split hnd hmem
  subst hslot
  have hrm : markRemoved s.accessible_keys k.slot =
      some (l1 ++ { k with status := "removed" } :: l2, k) := by
    rw [hkeys]
    exact markRemoved_found l1 k l2 k.slot hl1 rfl hst
  have hrk : removeKey s k.slot t1 =
      ({ s with
          accessible_keys := l1 ++ { k with status := "removed" } :: l2,
          removed_keys := s.removed_keys ++ [⟨k.name, k.slot, t1, s.session_id⟩] },
       true) := by
    unfold removeKey
    rw [hrm]
  have hslot2 : ({ k with status := "removed" } : KeyRecord).slot = k.slot := by
    cases k
    rfl
  have hback : ({ ({ k with status := "removed" } : KeyRecord) with
      status := "available" } : KeyRecord) = k := by
    cases k
    simp_all
  have hmr : markReturned (l1 ++ { k with status := "removed" } :: l2) k.slot =
      some (l1 ++ k :: l2, { k with status := "removed" }) := by
    have := markReturned_found l1 { k with status := "removed" } l2 k.slot
      (fun x hx => by rw [hslot2] at *; exact hl1 x hx) hslot2 (by cases k; rfl)
    rw [hback] at this
    exact this
  have hname : ({ k with status := "removed" } : KeyRecord).name = k.name := by
    cases k
    rfl
  rw [hrk]
  have hret : returnKey
      ({ s with
          accessible_keys := l1 ++ { k with status := "removed" } :: l2,
          removed_keys := s.removed_keys ++ [⟨k.name, k.slot, t1, s.session_id⟩] })
      k.slot t2 =
      ({ s with
          accessible_keys := l1 ++ k :: l2,
          removed_keys := s.removed_keys ++ [⟨k.name, k.slot, t1, s.session_id⟩],
          returned_keys := s.returned_keys ++ [⟨k.name, k.slot, t2, s.session_id⟩] },
       true) := by
    unfold returnKey
    dsimp only
    rw [hmr]
  rw [hret]
  refine ⟨rfl, rfl, ?_, rfl, rfl⟩
  exact hkeys.symm


/-- Claim C1: `_validate_navigation from to` permits exactly when
`to = "main_idle"`, or `from` has a rule entry whose allowed set holds `to`,
or `from` has no rule entry (fail-open); and `set_current` returns success
when validation permits and neither lifecycle hook raises, and returns
failure when validation rejects. -/
theorem navigateValidationIff :
    (∀ f t : String, validateNavigation f t = true ↔
      (t = "main_idle" ∨ (∃ ds, ruleFor f = some ds ∧ t ∈ ds) ∨
        ruleFor f = none)) ∧
    (∀ (s : Sys) (t d : String),
      validateNavigation s.nav.current t = true →
      hookOf s.nav.screen_registry s.nav.current true ≠ HookSpec.raises →
      hookOf s.nav.screen_registry t false ≠ HookSpec.raises →
      (setCurrent s t d).2 = true) ∧
    (∀ (s : Sys) (t d : String),
      validateNavigation s.nav.current t = false →
      (setCurrent s t d).2 = false) := by
  refine ⟨?_, ?_, ?_⟩
  · intro f t
    unfold validateNavigation
    by_cases ht : t = "main_idle"
    · simp [ht]
    · rw [if_neg ht]
      cases hr : ruleFor f with
      | some ds => simp [ht, hr]
      | none => simp [ht, hr]
  · intro s t d hv hex hen
    rw [setCurrent_snd, hv]
    cases hx : hookOf s.nav.screen_registry s.nav.current true <;>
      cases hy : hookOf s.nav.screen_registry t false <;>
        simp_all [isRaises]
  · intro s t d hv
    rw [setCurrent_snd, hv]
    rfl

/-- Witness for C1 at the concrete state `mainSys`: navigating to
`auth_selection` is permitted and succeeds, navigating to `pin_entry` is
rejected and fails. -/
theorem navigateValidationIff_witness :
    validateNavigation mainSys.nav.current "auth_selection" = true ∧
    hookOf mainSys.nav.screen_registry mainSys.nav.current true ≠ HookSpec.raises ∧
    hookOf mainSys.nav.screen_registry "auth_selection" false ≠ HookSpec.raises ∧
    (setCurrent mainSys "auth_selection" "left").2 = true ∧
    validateNavigation mainSys.nav.current "pin_entry" = false ∧
    (setCurrent mainSys "pin_entry" "left").2 = false :=
  ⟨by decide, by decide, by decide,
   navigateValidationIff.2.1 mainSys "auth_selection" "left" (by decide)
     (by decide) (by decide),
   by decide,
   navigateValidationIff.2.2 mainSys "pin_entry" "left" (by decide)⟩

/-- Claim C2: when `set_current` rejects a transition it returns failure and
changes nothing: the active screen, the history, and the hook-invocation log
are untouched; indeed the whole state is returned unchanged. -/
theorem rejectedNavigationNoop (s : Sys) (t d : String)
    (hv : validateNavigation s.nav.current t = false) :
    (setCurrent s t d).2 = false ∧
    (setCurrent s t d).1.nav.current = s.nav.current ∧
    (setCurrent s t d).1.nav.navigation_history = s.nav.navigation_history ∧
    (setCurrent s t d).1.nav.hookLog = s.nav.hookLog ∧
    (setCurrent s t d).1 = s := by
  rw [setCurrent_reject s t d hv]
  exact ⟨rfl, rfl, rfl, rfl, rfl⟩

/-- Witness for C2: from `main_idle`, a request for `pin_entry` is rejected
and the state is returned unchanged. -/
theorem rejectedNavigationNoop_witness :
    validateNavigation mainSys.nav.current "pin_entry" = false ∧
    (setCurrent mainSys "pin_entry" "right").1 = mainSys :=
  ⟨by decide,
   (rejectedNavigationNoop mainSys "pin_entry" "right" (by decide)).2.2.2.2⟩

/-- Claim C3 counterexample: the state reached by registering a screen named
`rogue` (which has no entry in `navigation_rules`) and navigating from it to
`pin_entry` is reachable, yet its recorded history event has a destination
that is neither `main_idle` nor a member of `navigation_rules[from]` - the
fail-open branch of `_validate_navigation` admits it, so the invariant as
stated by the claim fails. -/
theorem historyRuleInvariant_cex :
    Reachable cexC3 ∧
    ¬ (∀ e ∈ cexC3.nav.navigation_history,
        e.toS = "main_idle" ∨ e.toS ∈ (ruleFor e.fromS).getD []) := by
  constructor
  · exact Reachable.step
      (Reachable.step Reachable.init
        (Step.addScreen initSys "rogue" ⟨HookSpec.absent, HookSpec.absent⟩))
      (Step.setCur _ "pin_entry" "left")
  · decide

/-- Claim C3 (amended): invariant over all reachable states - every event in
`navigation_history` satisfied, at the moment it was recorded, the full
validation predicate: its destination was `main_idle`, or allowed by the
rule entry of its source, or its source had no rule entry (fail-open).
Equivalently, `_validate_navigation from to` held for the recorded pair. -/
theorem historyValidatedInvariant (s : Sys) (hr : Reachable s) :
    ∀ e ∈ s.nav.navigation_history,
      validateNavigation e.fromS e.toS = true :=
  reachable_hist_valid hr

/-- Witness for C3 (amended) at a concrete reachable state with one recorded
navigation. -/
theorem historyValidatedInvariant_witness :
    Reachable oneNavSys ∧
    ∀ e ∈ oneNavSys.nav.navigation_history,
      validateNavigation e.fromS e.toS = true :=
  have hr : Reachable oneNavSys :=
    Reachable.step Reachable.init (Step.setCur initSys "main_idle" "left")
  ⟨hr, historyValidatedInvariant oneNavSys hr⟩

/-- Claim C4 counterexample: a SessionState reached by starting a session,
removing a key, and starting a second session without ending the first
(`start_session` does not clear the audit lists) yields, after
`start_session` then `end_session`, a summary with `keys_removed = 1`,
not 0 as the claim states for every SessionState. -/
theorem startEndSummary_cex :
    (endSession (startSession c4mid "bob" "card" 10) 20).2.map
      SessionSummary.keys_removed = some 1 ∧
    (endSession (startSession c4mid "bob" "card" 10) 20).2.map
      SessionSummary.keys_removed ≠ some 0 := by
  constructor <;> decide

/-- Claim C4 (amended): for every SessionState whose `removed_keys` and
`returned_keys` lists are empty (in particular any freshly reset state),
`start_session` followed immediately by `end_session` returns a summary with
`keys_removed = 0` and `keys_returned = 0`, and afterwards
`session_active = false`. -/
theorem startEndSummaryZero (s : SessionState) (u m : String) (t1 t2 : Nat)
    (h1 : s.removed_keys = []) (h2 : s.returned_keys = []) :
    (endSession (startSession s u m t1) t2).2.map
      SessionSummary.keys_removed = some 0 ∧
    (endSession (startSession s u m t1) t2).2.map
      SessionSummary.keys_returned = some 0 ∧
    (endSession (startSession s u m t1) t2).1.session_active = false := by
  unfold endSession startSession
  simp [h1, h2, resetState]

/-- Witness for C4 (amended) at the reset state. -/
theorem startEndSummaryZero_witness :
    resetState.removed_keys = [] ∧ resetState.returned_keys = [] ∧
    (endSession (startSession resetState "carol" "card" 0) 5).1.session_active
      = false :=
  ⟨rfl, rfl, (startEndSummaryZero resetState "carol" "card" 0 5 rfl rfl).2.2⟩

/-- Claim C5, failing input: with the PIN-entry screen active and
`failed_attempts = 2`, `handle_authentication_failure` increments the counter
to `MAX_PIN_ATTEMPTS`, resets it to 0, but does not navigate to
`auth_selection`: the rule entry of `pin_entry` does not allow
`auth_selection`, so the internal `set_current` call is rejected, the call
returns failure, and the screen stays `pin_entry` - contradicting the
claimed forced navigation, while the method comment says it should go back
to auth selection.  The below-limit behaviour (increment, failure, no
navigation) matches the claim, as evaluated at `mainSys`. -/
theorem authFailureLockoutBlocked :
    lockoutSys.sess.failed_attempts + 1 = MAX_PIN_ATTEMPTS ∧
    (handleAuthenticationFailure lockoutSys).1.sess.failed_attempts = 0 ∧
    (handleAuthenticationFailure lockoutSys).2 = false ∧
    (handleAuthenticationFailure lockoutSys).1.nav.current = "pin_entry" ∧
    validateNavigation "pin_entry" "auth_selection" = false ∧
    (handleAuthenticationFailure mainSys).1.sess.failed_attempts = 1 ∧
    (handleAuthenticationFailure mainSys).2 = false ∧
    (handleAuthenticationFailure mainSys).1.nav.current = "main_idle" := by
  refine ⟨?_, ?_, ?_, ?_, ?_, ?_, ?_, ?_⟩ <;> decide

/-- Claim C6: `go_back` issues the navigation request (via `set_current`,
with reverse direction) to the `from` field of the second-to-last history
entry when the history has at least 2 entries, and to `main_idle` otherwise;
it reads the history positionally and pops nothing - within the 50-entry
bound the history never shrinks. -/
theorem goBackPositional (s : Sys) :
    goBack s = setCurrent s
      (if 2 ≤ s.nav.navigation_history.length then
        (s.nav.navigation_history.getD (s.nav.navigation_history.length - 2)
          ⟨"", "", none, none⟩).fromS
      else "main_idle") "right" ∧
    (s.nav.navigation_history.length ≤ 50 →
      s.nav.navigation_history.length ≤
        (goBack s).1.nav.navigation_history.length) := by
  have key : ∀ tgt, s.nav.navigation_history.length ≤ 50 →
      s.nav.navigation_history.length ≤
        (setCurrent s tgt "right").1.nav.navigation_history.length := by
    intro tgt h
    rcases setCurrent_hist_cases s tgt "right" with hc | ⟨_, hc⟩
    · rw [hc]
    · rw [hc, trimHist_length]
      omega
  constructor
  · unfold goBack
    split <;> rfl
  · intro h
    unfold goBack
    split <;> exact key _ h

/-- Witness for C6 at the initial state (fewer than 2 history entries). -/
theorem goBackPositional_witness :
    initSys.nav.navigation_history.length ≤ 50 ∧
    initSys.nav.navigation_history.length ≤
      (goBack initSys).1.nav.navigation_history.length :=
  ⟨by decide, (goBackPositional initSys).2 (by decide)⟩

/-- Claim C7: every reachable state has at most 50 history entries, and
recording 51 navigations from an empty history (folding the
`_record_navigation` update) leaves exactly the last 50, i.e. drops the
oldest entry. -/
theorem historyBound :
    (∀ s : Sys, Reachable s → s.nav.navigation_history.length ≤ 50) ∧
    (∀ es : List NavEvent, es.length = 51 →
      es.foldl trimHist [] = es.drop 1) :=
  ⟨fun _ hr => reachable_len_le hr, foldl_trimHist_51⟩

/-- Witness for C7: the initial state is reachable and within the bound, and
a concrete 51-event list folds to its tail. -/
theorem historyBound_witness :
    Reachable initSys ∧ initSys.nav.navigation_history.length ≤ 50 ∧
    (List.replicate 51 (⟨"a", "b", none, none⟩ : NavEvent)).length = 51 ∧
    (List.replicate 51 (⟨"a", "b", none, none⟩ : NavEvent)).foldl trimHist []
      = (List.replicate 51 (⟨"a", "b", none, none⟩ : NavEvent)).drop 1 :=
  ⟨Reachable.init, historyBound.1 initSys Reachable.init, by simp,
   historyBound.2 _ (by simp)⟩

/-- Claim C9: when validation accepts but a lifecycle hook raises,
`set_current` returns failure while the history entry has already been
appended (history is recorded before the hooks run); if the exit hook raised
the active screen is still the old one, and if the entry hook raised the
active screen has already advanced to the target. -/
theorem hookFailureSemantics (s : Sys) (t d : String)
    (hv : validateNavigation s.nav.current t = true) :
    (hookOf s.nav.screen_registry s.nav.current true = HookSpec.raises →
      (setCurrent s t d).2 = false ∧
      (setCurrent s t d).1.nav.navigation_history =
        trimHist s.nav.navigation_history
          ⟨s.nav.current, t, s.sess.current_user, s.sess.session_id⟩ ∧
      (setCurrent s t d).1.nav.current = s.nav.current) ∧
    (hookOf s.nav.screen_registry s.nav.current true ≠ HookSpec.raises →
      hookOf s.nav.screen_registry t false = HookSpec.raises →
      (setCurrent s t d).2 = false ∧
      (setCurrent s t d).1.nav.navigation_history =
        trimHist s.nav.navigation_history
          ⟨s.nav.current, t, s.sess.current_user, s.sess.session_id⟩ ∧
      (setCurrent s t d).1.nav.current = t) := by
  constructor
  · intro hex
    refine ⟨?_, setCurrent_hist_of_valid s t d hv, ?_⟩
    · rw [setCurrent_snd, hv, hex]
      simp [isRaises]
    · rw [setCurrent_current_of_valid s t d hv, hex]
      simp [isRaises]
  · intro hex hen
    refine ⟨?_, setCurrent_hist_of_valid s t d hv, ?_⟩
    · rw [setCurrent_snd, hv, hen]
      simp [isRaises]
    · rw [setCurrent_current_of_valid s t d hv]
      cases hx : hookOf s.nav.screen_registry s.nav.current true
      · simp [isRaises]
      · simp [isRaises]
      · exact absurd hx hex

/-- Witness for C9 at a concrete state whose current screen has a raising
exit hook. -/
theorem hookFailureSemantics_witness :
    validateNavigation hookSys.nav.current "beta" = true ∧
    hookOf hookSys.nav.screen_registry hookSys.nav.current true
      = HookSpec.raises ∧
    (setCurrent hookSys "beta" "left").2 = false ∧
    (setCurrent hookSys "beta" "left").1.nav.current = hookSys.nav.current :=
  ⟨by decide, by decide,
   ((hookFailureSemantics hookSys "beta" "left" (by decide)).1 (by decide)).1,
   ((hookFailureSemantics hookSys "beta" "left" (by decide)).1
     (by decide)).2.2⟩

/-- Claim C10: `start_session` leaves `removed_keys`, `returned_keys` and
`activity_code` unchanged (for every state, so in particular a second
`start_session` without an intervening `end_session` keeps the prior
audit events of the prior session), while `reset` clears them. -/
theorem startSessionFrame :
    (∀ (s : SessionState) (u m : String) (now : Nat),
      (startSession s u m now).removed_keys = s.removed_keys ∧
      (startSession s u m now).returned_keys = s.returned_keys ∧
      (startSession s u m now).activity_code = s.activity_code) ∧
    resetState.removed_keys = [] ∧ resetState.returned_keys = [] ∧
    resetState.activity_code = none :=
  ⟨fun _ _ _ _ => ⟨rfl, rfl, rfl⟩, rfl, rfl, rfl⟩

/-- Witness for C8 on the standard-user inventory: remove then return key
slot 1. -/
theorem keyRemoveReturnRoundTrip_witness :
    (aliceSess.accessible_keys.map KeyRecord.slot).Nodup ∧
    (⟨"Main Office Entrance", 1, "available"⟩ : KeyRecord)
      ∈ aliceSess.accessible_keys ∧
    (removeKey aliceSess 1 5).2 = true ∧
    (returnKey (removeKey aliceSess 1 5).1 1 6).2 = true ∧
    (returnKey (removeKey aliceSess 1 5).1 1 6).1.accessible_keys
      = aliceSess.accessible_keys :=
  ⟨by decide, by decide,
   (keyRemoveReturnRoundTrip aliceSess ⟨"Main Office Entrance", 1, "available"⟩ 1 5 6
     (by decide) (by decide) rfl rfl).1,
   (keyRemoveReturnRoundTrip aliceSess ⟨"Main Office Entrance", 1, "available"⟩ 1 5 6
     (by decide) (by decide) rfl rfl).2.1,
   (keyRemoveReturnRoundTrip aliceSess ⟨"Main Office Entrance", 1, "available"⟩ 1 5 6
     (by decide) (by decide) rfl rfl).2.2.1⟩
